import Mathlib

/-!
# Attendly time-clock backend: a shallow embedding

This file embeds the punch-processing workflow of the Attendly backend
(`google-apps-script.js`, primary variant, and the near-duplicate second
variant) and proves the specification's claims about it.

Modelling conventions:
* JS strings are Lean `String`s; character-level operations (`split`,
  `trim`, `Number`) are modelled on `String.data`.
* A time component is observed by the program only as
  `ToIntegerOrInfinity(Number(seg))` — `setHours` hands each argument to
  `MakeTime`, which truncates it toward zero and makes the date invalid
  when it is not finite.  We model that composition as `Option Int`:
  `none` for a non-finite value (`NaN` or `±Infinity`, both of which make
  the date invalid and the final result `NaN`), `some n` for the
  truncation of a finite value.  `Number`'s full `StringNumericLiteral`
  grammar is implemented (decimal with fraction and exponent, `Infinity`,
  hex/octal/binary); the finite/non-finite classification is exact,
  including the binary64 overflow boundary `2^1024 - 2^970`.  What is
  approximated: the value is the exact decimal value rather than its
  binary64 rounding, so for inputs with 16+ significant digits the
  truncation can differ by one (no theorem relies on such inputs), and
  the 8.64e15-ms `TimeClip` range limit is not modelled (reachable only
  for hour magnitudes above ~10^11, likewise unused).
* The final `parseFloat(x.toFixed(2))` is modelled as exact decimal
  rounding to two places on rationals (`round2`).  For the values this
  program produces (integer numbers of minutes divided by 60) the double
  rounding of the JS pipeline agrees with exact rational rounding, since
  such values are never within 1/600 of a half-cent boundary.
* Spreadsheet cells are `Cell`: a text value, a structured date
  (abstracted by the three observations the two backends make of it: its
  `yyyy-MM-dd` formatting in the primary variant's `TIMEZONE = 'GMT+0'`,
  its formatting in the second variant's `'Europe/Warsaw'` — which can be
  a different day string for instants near UTC midnight — and its JS
  `toString()` rendering), or a number (written by punch-out).
* The wall clock is passed in as the already-formatted `currentDate` /
  `currentTime` strings, exactly as `processPunch` computes them once and
  threads them through.
-/

namespace Attendly

/-- The ECMAScript `WhiteSpace` and `LineTerminator` characters — the set
trimmed by `String.prototype.trim` and skipped around a
`StringNumericLiteral`: TAB LF VT FF CR SP NBSP ZWNBSP, the Unicode `Zs`
code points, and LS/PS. -/
def isWsChar (c : Char) : Bool :=
  c = ' ' || c = '\t' || c = '\n' || c = '\r' ||
  c.toNat = 0xb || c.toNat = 0xc || c.toNat = 0xa0 || c.toNat = 0xfeff ||
  c.toNat = 0x1680 || (0x2000 ≤ c.toNat && c.toNat ≤ 0x200a) ||
  c.toNat = 0x2028 || c.toNat = 0x2029 || c.toNat = 0x202f ||
  c.toNat = 0x205f || c.toNat = 0x3000

/-- ASCII decimal digit test, as used by the modelled `Number(...)`. -/
def isDigitChar (c : Char) : Bool :=
  48 ≤ c.toNat && c.toNat ≤ 57

/-- Trim leading and trailing whitespace from a character list. -/
def trimChars (l : List Char) : List Char :=
  ((l.dropWhile isWsChar).reverse.dropWhile isWsChar).reverse

/-- Model of `s.trim()`. -/
def jsTrim (s : String) : String :=
  String.mk (trimChars s.data)

/-- Value of a list of decimal digit characters. -/
def digitsVal (l : List Char) : Nat :=
  l.foldl (fun acc c => 10 * acc + (c.toNat - 48)) 0

/-- Hexadecimal digit test (`0-9a-fA-F`). -/
def isHexDigitChar (c : Char) : Bool :=
  isDigitChar c || ('a' ≤ c && c ≤ 'f') || ('A' ≤ c && c ≤ 'F')

/-- Octal digit test. -/
def isOctalDigitChar (c : Char) : Bool :=
  '0' ≤ c && c ≤ '7'

/-- Binary digit test. -/
def isBinaryDigitChar (c : Char) : Bool :=
  c = '0' || c = '1'

/-- Value of a digit character in any base up to 16. -/
def hexDigitVal (c : Char) : Nat :=
  if c.toNat ≤ 57 then c.toNat - 48
  else if c.toNat ≤ 70 then c.toNat - 55
  else c.toNat - 87

/-- Value of a digit string in base `b`. -/
def digitsValBase (b : Nat) (l : List Char) : Nat :=
  l.foldl (fun acc c => b * acc + hexDigitVal c) 0

/-- The binary64 overflow boundary: an exact decimal value whose
magnitude is at least `2^1024 - 2^970` rounds (half-even) to
`±Infinity`; anything strictly below stays finite.  Written as a literal
(see `overflowBound_eq`) so kernel evaluation needs no deep recursion. -/
def overflowBound : Nat :=
  179769313486231580793728971405303415079934132710037826936173778980444968292764750946649017977587207096330286416692887910946555547851940402630657488671505820681908902000708383676273854845817711531764475730270069855571366959622842914819860834936475292719074168444365510704342711559699508093042880177904174497792

theorem overflowBound_eq : overflowBound = 2 ^ 1024 - 2 ^ 970 := by
  norm_num [overflowBound]

/-- Parse an ECMAScript `ExponentPart` against the WHOLE remaining input
(`[]` means "no exponent", value `0`). -/
def parseExponent : List Char → Option Int
  | [] => some 0
  | c :: rest =>
    if c = 'e' || c = 'E' then
      match rest with
      | '+' :: ds =>
        if ds.isEmpty then none
        else if ds.all isDigitChar then some (digitsVal ds : Int) else none
      | '-' :: ds =>
        if ds.isEmpty then none
        else if ds.all isDigitChar then some (-(digitsVal ds : Int)) else none
      | ds =>
        if ds.isEmpty then none
        else if ds.all isDigitChar then some (digitsVal ds : Int) else none
    else none

/-- Parse an ECMAScript `StrUnsignedDecimalLiteral` other than
`Infinity`, consuming the whole input: returns the mantissa digit
characters (integer and fraction parts concatenated), the number of
fraction digits, and the exponent. -/
def parseUnsignedDecimal (l : List Char) : Option (List Char × Nat × Int) :=
  let intPart := l.takeWhile isDigitChar
  let rest := l.dropWhile isDigitChar
  match rest with
  | '.' :: rest2 =>
    let fracPart := rest2.takeWhile isDigitChar
    let rest3 := rest2.dropWhile isDigitChar
    if intPart.isEmpty && fracPart.isEmpty then none
    else
      match parseExponent rest3 with
      | some e => some (intPart ++ fracPart, fracPart.length, e)
      | none => none
  | _ =>
    if intPart.isEmpty then none
    else
      match parseExponent rest with
      | some e => some (intPart, 0, e)
      | none => none

/-- `ToIntegerOrInfinity` of the exact decimal value
`digits · 10 ^ (e - f)`: truncation toward zero for finite values,
`none` when the magnitude reaches the binary64 overflow boundary (the
value would round to `Infinity`).  Guards keep every computation on
integers of size bounded by the input, so the definition evaluates in
the kernel. -/
def truncScaled (digits : List Char) (f : Nat) (e : Int) : Option Int :=
  let sig := digits.dropWhile (fun c => c = '0')
  if sig.isEmpty then some 0
  else
    let p : Int := e - (f : Int)
    if 310 ≤ (sig.length : Int) + p then none
    else if 0 ≤ p then
      let v := digitsVal digits * 10 ^ p.toNat
      if overflowBound ≤ v then none else some (v : Int)
    else
      let k := (-p).toNat
      if sig.length ≤ k then some 0
      else if overflowBound * 10 ^ k ≤ digitsVal digits then none
      else some ((digitsVal digits / 10 ^ k : Nat) : Int)

/-- An unsigned non-decimal integer value, `none` on overflow. -/
def truncUnsignedInt (m : Nat) : Option Int :=
  if overflowBound ≤ m then none else some (m : Int)

/-- `ToIntegerOrInfinity(Number(str))` for an optionally signed
`StrDecimalLiteral` body (no radix prefixes, which ECMAScript forbids
after a sign): `Infinity` and overflow are non-finite (`none`, like
`NaN`: both make the subsequent `Date` invalid). -/
def parseDecimalSignless (l : List Char) : Option Int :=
  if l = ['I', 'n', 'f', 'i', 'n', 'i', 't', 'y'] then none
  else
    match parseUnsignedDecimal l with
    | some (digits, f, e) => truncScaled digits f e
    | none => none

/-- The composition `ToIntegerOrInfinity(Number(str))` applied by
`setHours`/`MakeTime` to each time component: the full
`StringNumericLiteral` grammar (whitespace-trimmed; empty is `0`; signed
decimal with optional fraction and exponent; `Infinity`; unsigned
`0x`/`0o`/`0b` literals), truncated toward zero; `none` for anything
non-finite (`NaN`, `±Infinity`, or decimal overflow), which leaves the
`Date` invalid.  The value is the exact decimal value (binary64 value
rounding is not modelled; the finite/non-finite split is exact). -/
def jsNumberChars (l : List Char) : Option Int :=
  match trimChars l with
  | [] => some 0
  | c :: rest =>
    if c = '-' then (parseDecimalSignless rest).map (fun v => -v)
    else if c = '+' then parseDecimalSignless rest
    else if c = '0' then
      match rest with
      | x :: ds =>
        if x = 'x' || x = 'X' then
          if ds.isEmpty then none
          else if ds.all isHexDigitChar then truncUnsignedInt (digitsValBase 16 ds)
          else none
        else if x = 'o' || x = 'O' then
          if ds.isEmpty then none
          else if ds.all isOctalDigitChar then truncUnsignedInt (digitsValBase 8 ds)
          else none
        else if x = 'b' || x = 'B' then
          if ds.isEmpty then none
          else if ds.all isBinaryDigitChar then truncUnsignedInt (digitsValBase 2 ds)
          else none
        else parseDecimalSignless (c :: rest)
      | [] => parseDecimalSignless [c]
    else parseDecimalSignless (c :: rest)

/-- Model of `s.split(':')` at the character level: splits into the
(nonempty) list of maximal colon-free segments. -/
def splitColon : List Char → List (List Char)
  | [] => [[]]
  | c :: cs =>
    if c = ':' then [] :: splitColon cs
    else
      match splitColon cs with
      | [] => [[c]]
      | seg :: segs => (c :: seg) :: segs

/-- `const [h, m] = str.split(':').map(Number)`: component `i` of the
split-and-parsed list; a missing element is JS `undefined`, which behaves
as `NaN` once fed to `setHours`, so it is also `none`. -/
def timeComponents (s : String) : Option Int × Option Int :=
  let parts := (splitColon s.data).map jsNumberChars
  (((parts.get? 0).getD none), ((parts.get? 1).getD none))

/-- `parseFloat(x.toFixed(2))` on the program's rational values: exact
rounding to two decimal places (ties cannot occur for multiples of 1/60,
where this model is used). -/
def round2 (q : ℚ) : ℚ :=
  ((⌊q * 100 + 1 / 2⌋ : Int) : ℚ) / 100

/-- `calculateWorkingHours(punchInTime, punchOutTime)` from
`google-apps-script.js` lines 212–233: parse both times as `H:m` (each
component being `ToIntegerOrInfinity(Number(seg))`, the integer
`setHours`/`MakeTime` actually uses), build two times-of-day on a common
reference day (the absolute time is `h*60+m` minutes, out-of-range
components rolling over), move the out-time one day later when it is
strictly earlier, and return the difference in hours rounded to two
decimals.  A non-finite component makes either date invalid: the `<`
comparison is then false, the difference is `NaN`, and `NaN` is returned
(`none`).  The JS `catch` (returning `0`) can only fire on non-string
inputs, which this string-typed model excludes. -/
def calculateWorkingHours (punchInTime punchOutTime : String) : Option ℚ :=
  match timeComponents punchInTime, timeComponents punchOutTime with
  | (some inHour, some inMinute), (some outHour, some outMinute) =>
    let punchIn : Int := inHour * 60 + inMinute
    let punchOut0 : Int := outHour * 60 + outMinute
    let punchOut : Int := if punchOut0 < punchIn then punchOut0 + 1440 else punchOut0
    some (round2 (((punchOut - punchIn : Int) : ℚ) / 60))
  | _, _ => none

/-- `calculateWorkingHours` from the second backend variant
(`src/unnamed/part_001` lines 237–260); its body is logic-for-logic the
same as the primary variant's. -/
def calculateWorkingHoursW (punchInTime punchOutTime : String) : Option ℚ :=
  match timeComponents punchInTime, timeComponents punchOutTime with
  | (some inHour, some inMinute), (some outHour, some outMinute) =>
    let punchInDate : Int := inHour * 60 + inMinute
    let punchOutDate0 : Int := outHour * 60 + outMinute
    let punchOutDate : Int :=
      if punchOutDate0 < punchInDate then punchOutDate0 + 1440 else punchOutDate0
    some (round2 (((punchOutDate - punchInDate : Int) : ℚ) / 60))
  | _, _ => none

/-- A spreadsheet cell value, abstracted by the observations the two
backends make of it: text cells are carried verbatim; a structured date
cell is abstracted by three renderings of the same instant — `ymdGmt`,
its `Utilities.formatDate(_, 'GMT+0', "yyyy-MM-dd")` output as the
primary variant's `TIMEZONE` formats it; `ymdWarsaw`, its
`formatDate(_, 'Europe/Warsaw', "yyyy-MM-dd")` output as the second
variant formats it (a different day string when the instant falls near
UTC midnight); and `tostr`, its JS `toString()` rendering.  Numeric
cells (written by punch-out for the total-hours column, `none` for
`NaN`) are carried as rationals; the workflow never calls `toString` on
a numeric cell in any modelled scenario, and `cellToString` renders it
via Lean's `Rat` printer only so the model stays total. -/
inductive Cell where
  | str (v : String)
  | date (ymdGmt : String) (ymdWarsaw : String) (tostr : String)
  | num (v : Option ℚ)
deriving DecidableEq, Repr

/-- JS truthiness of a cell value: the empty string is falsy, every date
object is truthy, a number is falsy exactly when it is `0` or `NaN`. -/
def cellTruthy : Cell → Bool
  | .str v => v ≠ ""
  | .date _ _ _ => true
  | .num v => v ≠ none && v ≠ some 0

/-- JS `toString()` of a cell value. -/
def cellToString : Cell → String
  | .str v => v
  | .date _ _ tostr => tostr
  | .num v => match v with | some q => toString q | none => "NaN"

/-- A data row of the Attendance Log (columns A–F, rows 2 and below). -/
structure Row where
  name : Cell
  date : Cell
  punchIn : Cell
  punchOut : Cell
  total : Cell
  status : Cell
deriving DecidableEq, Repr

/-- A data row of the Employee Database (columns A–B, rows 2 and below). -/
structure DirRow where
  name : Cell
  dob : Cell
deriving DecidableEq, Repr

/-- The uniform result envelope produced by `createJsonResponse`:
`{ success, message, employees? }`.  The `employees` key is set exactly
when an array is passed as `data` (the `data` key branch of
`createJsonResponse` is dead code: no caller passes a non-array payload);
the array elements are the raw cell values. -/
structure Response where
  success : Bool
  message : String
  employees : Option (List Cell) := none
deriving DecidableEq, Repr

/-- The date string the primary variant's `findTodayRecord` computes for
the date cell (line 194): structured dates are formatted as `yyyy-MM-dd`
in its `TIMEZONE = 'GMT+0'`, everything else is `toString()`ed with no
trimming. -/
def dateStringV1 : Cell → String
  | .date ymdGmt _ _ => ymdGmt
  | c => cellToString c

/-- The date string the second variant's `findTodayRecord` computes
(`part_001` line 219): structured dates are formatted in ITS
`TIMEZONE = 'Europe/Warsaw'` — possibly a different day string than the
primary variant's — and text values are trimmed (which the primary
variant does not do). -/
def dateStringV2 : Cell → String
  | .date _ ymdWarsaw _ => ymdWarsaw
  | c => jsTrim (cellToString c)

/-- The row-match test of `findTodayRecord` (line 198):
`name.toString().trim() === employeeName.trim() && dateString === currentDate`. -/
def rowMatchB (r : Row) (employeeName currentDate : String) : Bool :=
  jsTrim (cellToString r.name) = jsTrim employeeName && dateStringV1 r.date = currentDate

/-- The row-match test of the second variant's `findTodayRecord`
(`part_001` line 223): same, with the trimmed date string. -/
def rowMatchBW (r : Row) (employeeName currentDate : String) : Bool :=
  jsTrim (cellToString r.name) = jsTrim employeeName && dateStringV2 r.date = currentDate

/-- The punch-in time string `findTodayRecord` exposes for a row
(line 201): `cell ? cell.toString() : ''`. -/
def recIn (r : Row) : String :=
  if cellTruthy r.punchIn then cellToString r.punchIn else ""

/-- The punch-out time string `findTodayRecord` exposes for a row
(line 202). -/
def recOut (r : Row) : String :=
  if cellTruthy r.punchOut then cellToString r.punchOut else ""

/-- The record `findTodayRecord` returns: 1-based sheet row number
(data row `i` lives at sheet row `i + 2`) plus the two time strings. -/
structure FoundRecord where
  row : Nat
  punchInTime : String
  punchOutTime : String
deriving DecidableEq, Repr

/-- The record built at line 199–203 for the data row at index `i`. -/
def mkFound (i : Nat) (r : Row) : FoundRecord :=
  ⟨i + 2, recIn r, recOut r⟩

/-- The descending scan of `findTodayRecord` (lines 192–205): `findAux n d
rows k` inspects indices `k-1, k-2, …, 0` in that order and returns the
record of the first row matching `rowMatchB`. -/
def findAux (employeeName currentDate : String) (rows : List Row) : Nat → Option FoundRecord
  | 0 => none
  | i + 1 =>
    match rows[i]? with
    | some r =>
      if rowMatchB r employeeName currentDate then some (mkFound i r)
      else findAux employeeName currentDate rows i
    | none => findAux employeeName currentDate rows i

/-- `findTodayRecord(attendanceSheet, employeeName, currentDate)` from
`google-apps-script.js` lines 185–207.  `rows` is the list of data rows
(sheet rows 2..lastRow); the `lastRow < 2` early return coincides with the
scan over the empty list. -/
def findTodayRecord (rows : List Row) (employeeName currentDate : String) : Option FoundRecord :=
  findAux employeeName currentDate rows rows.length

/-- The descending scan of the second variant's `findTodayRecord`
(`part_001` lines 216–230), which trims text-typed date cells. -/
def findAuxW (employeeName currentDate : String) (rows : List Row) : Nat → Option FoundRecord
  | 0 => none
  | i + 1 =>
    match rows[i]? with
    | some r =>
      if rowMatchBW r employeeName currentDate then some (mkFound i r)
      else findAuxW employeeName currentDate rows i
    | none => findAuxW employeeName currentDate rows i

/-- `findTodayRecord` from the second backend variant (`part_001`
lines 210–232). -/
def findTodayRecordW (rows : List Row) (employeeName currentDate : String) : Option FoundRecord :=
  findAuxW employeeName currentDate rows rows.length

/-- In-place update of the data row at index `i` (models
`getRange(row, col).setValue(...)` on an existing row; the scan only ever
produces in-range row numbers, so the out-of-range case is unreachable). -/
def modifyAt (l : List Row) (i : Nat) (f : Row → Row) : List Row :=
  match l, i with
  | [], _ => []
  | a :: l, 0 => f a :: l
  | a :: l, n + 1 => a :: modifyAt l n f

/-- `processPunchIn(attendanceSheet, employeeName, currentDate,
currentTime)` from `google-apps-script.js` lines 146–156: reject when
today's record exists with a (truthy) punch-in time, else append
`[name, date, time, '', '', 'In Progress']`.  Returns the new ledger and
the response. -/
def processPunchIn (rows : List Row) (employeeName currentDate currentTime : String) :
    List Row × Response :=
  match findTodayRecord rows employeeName currentDate with
  | some existingRecord =>
    if existingRecord.punchInTime ≠ "" then
      (rows, ⟨false, "You already punched in today at " ++ existingRecord.punchInTime ++ ".", none⟩)
    else
      (rows ++ [⟨.str employeeName, .str currentDate, .str currentTime, .str "", .str "", .str "In Progress"⟩],
       ⟨true, "Punch-in successful at " ++ currentTime ++ ".", none⟩)
  | none =>
    (rows ++ [⟨.str employeeName, .str currentDate, .str currentTime, .str "", .str "", .str "In Progress"⟩],
     ⟨true, "Punch-in successful at " ++ currentTime ++ ".", none⟩)

/-- JS `x >= y` where `x` may be `NaN` (`none`): `NaN >= y` is false. -/
def jsGe (x : Option ℚ) (y : ℚ) : Bool :=
  match x with
  | some q => y ≤ q
  | none => false

/-- JS `x.toFixed(2)` on the punch-out total: `"NaN"` for `NaN`, else
sign, integer part, and two decimal digits.  The values this receives
are `round2` outputs — exact multiples of 1/100 — on which `toFixed`
performs no further rounding, so the half-up re-rounding below is
exact there. -/
def toFixed2Str (x : Option ℚ) : String :=
  match x with
  | none => "NaN"
  | some q =>
    let n : Int := ⌊q * 100 + 1 / 2⌋
    let sign : String := if n < 0 then "-" else ""
    let m : Nat := n.natAbs
    sign ++ toString (m / 100) ++ "." ++
      (if m % 100 < 10 then "0" else "") ++ toString (m % 100)

/-- `processPunchOut(...)` from `google-apps-script.js` lines 161–180:
reject when no record or no punch-in time; reject when a punch-out time is
already set; otherwise compute the hours, derive the status against
`STANDARD_WORK_HOURS = 8`, and overwrite columns 4–6 of the found row in
place. -/
def processPunchOut (rows : List Row) (employeeName currentDate currentTime : String) :
    List Row × Response :=
  match findTodayRecord rows employeeName currentDate with
  | none => (rows, ⟨false, "No punch-in record found for today. Please punch in first.", none⟩)
  | some existingRecord =>
    if existingRecord.punchInTime = "" then
      (rows, ⟨false, "No punch-in record found for today. Please punch in first.", none⟩)
    else if existingRecord.punchOutTime ≠ "" then
      (rows, ⟨false, "You already punched out today at " ++ existingRecord.punchOutTime ++ ".", none⟩)
    else
      let totalHours := calculateWorkingHours existingRecord.punchInTime currentTime
      let status := if jsGe totalHours 8 then "On Time" else "Less Hours"
      (modifyAt rows (existingRecord.row - 2) (fun r =>
         { r with punchOut := .str currentTime, total := .num totalHours, status := .str status }),
       ⟨true, "Punch-out successful at " ++ currentTime ++ ". Total hours: "
          ++ toFixed2Str totalHours ++ " (" ++ status ++ ")", none⟩)

/-- The name-match test of `validateEmployee`'s scan (line 129):
`name && name.toString().trim() === employeeName.trim()`. -/
def dirNameMatchB (r : DirRow) (employeeName : String) : Bool :=
  cellTruthy r.name && jsTrim (cellToString r.name) = jsTrim employeeName

/-- The stored date of birth normalized as at lines 130–132 of the
primary variant: structured dates are formatted `yyyy-MM-dd` in its
`TIMEZONE = 'GMT+0'`, text is `toString().trim()`ed. -/
def dobNorm : Cell → String
  | .date ymdGmt _ _ => ymdGmt
  | c => jsTrim (cellToString c)

/-- `validateEmployee(employeeName, dateOfBirth)` from
`google-apps-script.js` lines 119–141: `none` for the directory models a
missing or unreadable Employee Database sheet (the catch / missing-sheet
paths, which return `false`).  The scan returns on the FIRST row whose
(truthy) trimmed name equals the trimmed input, comparing the normalized
stored date of birth against the trimmed input date. -/
def validateEmployee (dir : Option (List DirRow)) (employeeName dateOfBirth : String) : Bool :=
  match dir with
  | none => false
  | some rows =>
    match rows.find? (fun r => dirNameMatchB r employeeName) with
    | some r => dobNorm r.dob = jsTrim dateOfBirth
    | none => false

/-- `processPunch(employeeName, dateOfBirth, punchType)` from
`google-apps-script.js` lines 86–114.  `""` models a missing/falsy request
field; `att = none` models a missing Attendance Log sheet, whose thrown
error is caught at line 110 and surfaced as the generic processing error.
The already-formatted `currentDate`/`currentTime` stand for the two
`Utilities.formatDate(now, TIMEZONE, …)` calls.  Returns the (possibly)
updated ledger and the response. -/
def processPunch (dir : Option (List DirRow)) (att : Option (List Row))
    (employeeName dateOfBirth punchType currentDate currentTime : String) :
    Option (List Row) × Response :=
  if employeeName = "" || dateOfBirth = "" || punchType = "" then
    (att, ⟨false, "Missing required parameters.", none⟩)
  else if punchType ≠ "in" && punchType ≠ "out" then
    (att, ⟨false, "Invalid punch type.", none⟩)
  else if ¬ validateEmployee dir employeeName dateOfBirth then
    (att, ⟨false, "Employee not found or date of birth is incorrect.", none⟩)
  else
    match att with
    | none =>
      (none, ⟨false, "Error processing punch: Sheet \"Attendance Log\" not found.", none⟩)
    | some rows =>
      if punchType = "in" then
        let (rows2, resp) := processPunchIn rows employeeName currentDate currentTime
        (some rows2, resp)
      else
        let (rows2, resp) := processPunchOut rows employeeName currentDate currentTime
        (some rows2, resp)

/-- `getEmployees()` from `google-apps-script.js` lines 63–81: a missing
sheet throws, caught into an error response; an empty table answers with
an empty list; otherwise the non-blank name cells of column A are
returned.  Only this operation ever passes an array to
`createJsonResponse`, so only it sets `employees`. -/
def getEmployees (dir : Option (List DirRow)) : Response :=
  match dir with
  | none =>
    ⟨false, "Error retrieving employees: Sheet \"Employee Database\" not found.", none⟩
  | some rows =>
    if rows.isEmpty then ⟨true, "No employees found.", some []⟩
    else
      ⟨true, "Employees retrieved successfully.",
       some ((rows.map (fun r => r.name)).filter
         (fun c => cellTruthy c && jsTrim (cellToString c) ≠ ""))⟩

/-- `doGet(e)` from `google-apps-script.js` lines 28–39; `action` is
`e.parameter.action` (`none` when the query string has no such key). -/
def doGet (dir : Option (List DirRow)) (action : Option String) : Response :=
  if action = some "getEmployees" then getEmployees dir
  else ⟨false, "Unrecognized action", none⟩

/-- A parsed POST body; a missing field is modelled as `""` (both are
falsy and are rejected before any other use). -/
structure PostReq where
  action : String
  employeeName : String
  dateOfBirth : String
  punchType : String
deriving DecidableEq, Repr

/-- The outcome of `JSON.parse(e.postData.contents)`: either a parse
error carrying the thrown message, or a parsed request. -/
inductive PostInput where
  | malformed (errMsg : String)
  | parsed (req : PostReq)
deriving DecidableEq, Repr

/-- `doPost(e)` from `google-apps-script.js` lines 44–58: a JSON parse
failure is caught and surfaced as a server error; a `punch` action is
dispatched to `processPunch`; anything else is rejected. -/
def doPost (dir : Option (List DirRow)) (att : Option (List Row))
    (currentDate currentTime : String) (input : PostInput) :
    Option (List Row) × Response :=
  match input with
  | .malformed errMsg => (att, ⟨false, "Server error: " ++ errMsg, none⟩)
  | .parsed req =>
    if req.action = "punch" then
      processPunch dir att req.employeeName req.dateOfBirth req.punchType currentDate currentTime
    else
      (att, ⟨false, "Unrecognized action", none⟩)

/-! ## Specification-side vocabulary -/

/-- The decimal digit character for `d` (`d ≤ 9`; larger inputs clamp,
outside the use sites). -/
def digitChar : Nat → Char
  | 0 => '0'
  | 1 => '1'
  | 2 => '2'
  | 3 => '3'
  | 4 => '4'
  | 5 => '5'
  | 6 => '6'
  | 7 => '7'
  | 8 => '8'
  | _ => '9'

/-- The canonical zero-padded `HH:mm` rendering of an hour/minute pair —
the shape `Utilities.formatDate(now, TZ, "HH:mm")` produces. -/
def hhmmStr (h m : Nat) : String :=
  String.mk [digitChar (h / 10), digitChar (h % 10), ':', digitChar (m / 10), digitChar (m % 10)]

/-- The specification's elapsed time in minutes: an out-time strictly
before the in-time falls on the next calendar day. -/
def elapsedMinutes (inH inM outH outM : Nat) : Int :=
  if (outH * 60 + outM : Int) < inH * 60 + inM then
    outH * 60 + outM + 1440 - (inH * 60 + inM)
  else
    outH * 60 + outM - (inH * 60 + inM)

/-- `needle` occurs contiguously inside `hay`. -/
def containsSub (needle hay : String) : Prop :=
  ∃ a b, hay = a ++ needle ++ b

/-- A ledger row that is "open": it exposes a punch-in time but no
punch-out time. -/
def RowOpen (r : Row) : Prop :=
  recIn r ≠ "" ∧ recOut r = ""

/-- Every data row of the ledger exposes a punch-in time (true of every
row the workflow itself writes). -/
def AllPunchedIn (rows : List Row) : Prop :=
  ∀ (i : Nat) (r : Row), rows[i]? = some r → recIn r ≠ ""

/-- The spec's ledger invariant: for every (employee, date) key, at most
one row matching that key is open. -/
def AtMostOneOpen (rows : List Row) : Prop :=
  ∀ (n d : String) (i j : Nat) (ri rj : Row), rows[i]? = some ri → rows[j]? = some rj →
    rowMatchB ri n d = true → rowMatchB rj n d = true →
    RowOpen ri → RowOpen rj → i = j

/-- The strengthened ledger invariant under which the punch operations
are actually closed: every row has a punch-in time, and at most one row
per key is open. -/
def LedgerWF (rows : List Row) : Prop :=
  AllPunchedIn rows ∧ AtMostOneOpen rows

/-! ## Lemmas: digits, `HH:mm` parsing -/

theorem digitChar_ne_colon (a : Nat) : digitChar a ≠ ':' := by
  unfold digitChar; split <;> decide

theorem digitChar_ne_dash (a : Nat) : digitChar a ≠ '-' := by
  unfold digitChar; split <;> decide

theorem digitChar_ne_plus (a : Nat) : digitChar a ≠ '+' := by
  unfold digitChar; split <;> decide

theorem digitChar_not_ws (a : Nat) : isWsChar (digitChar a) = false := by
  unfold digitChar; split <;> decide

theorem digitChar_isDigit (a : Nat) : isDigitChar (digitChar a) = true := by
  unfold digitChar; split <;> decide

theorem digitChar_toNat (a : Nat) (h : a ≤ 9) : (digitChar a).toNat = 48 + a := by
  interval_cases a <;> rfl

theorem trimChars_two_digits (x y : Nat) :
    trimChars [digitChar x, digitChar y] = [digitChar x, digitChar y] := by
  simp [trimChars, List.dropWhile_cons, digitChar_not_ws]

theorem jsNumber_two_digits (x y : Nat) (hx : x ≤ 9) (hy : y ≤ 9) :
    jsNumberChars [digitChar x, digitChar y] = some ((10 * x + y : Nat) : Int) := by
  interval_cases x <;> interval_cases y <;> decide

theorem splitColon_hhmm (h m : Nat) :
    splitColon [digitChar (h / 10), digitChar (h % 10), ':', digitChar (m / 10), digitChar (m % 10)]
      = [[digitChar (h / 10), digitChar (h % 10)], [digitChar (m / 10), digitChar (m % 10)]] := by
  simp [splitColon, digitChar_ne_colon]

theorem timeComponents_hhmm (h m : Nat) (hh : h < 100) (hm : m < 100) :
    timeComponents (hhmmStr h m) = (some (h : Int), some (m : Int)) := by
  have hh1 : h / 10 ≤ 9 := by omega
  have hh2 : h % 10 ≤ 9 := by omega
  have hm1 : m / 10 ≤ 9 := by omega
  have hm2 : m % 10 ≤ 9 := by omega
  rw [timeComponents, hhmmStr]
  show (let parts := (splitColon [digitChar (h / 10), digitChar (h % 10), ':',
      digitChar (m / 10), digitChar (m % 10)]).map jsNumberChars
    (((parts.get? 0).getD none), ((parts.get? 1).getD none))) = _
  rw [splitColon_hhmm]
  simp only [List.map, jsNumber_two_digits _ _ hh1 hh2, jsNumber_two_digits _ _ hm1 hm2,
    List.get?, Option.getD_some]
  have e1 : 10 * (h / 10) + h % 10 = h := by omega
  have e2 : 10 * (m / 10) + m % 10 = m := by omega
  rw [e1, e2]

/-! ## Lemmas: the backward ledger scan -/

theorem findAux_eq_none_iff (n d : String) (rows : List Row) (k : Nat) :
    findAux n d rows k = none ↔
      ∀ (i : Nat) (r : Row), i < k → rows[i]? = some r → rowMatchB r n d = false := by
  induction k with
  | zero => simp [findAux]
  | succ k ih =>
    rw [findAux]
    cases hk : rows[k]? with
    | none =>
      dsimp only
      rw [ih]
      constructor
      · intro h i r hi hr
        rcases Nat.lt_succ_iff_lt_or_eq.mp hi with hi' | hi'
        · exact h i r hi' hr
        · subst hi'; rw [hk] at hr; exact absurd hr (by simp)
      · intro h i r hi hr
        exact h i r (Nat.lt_succ_of_lt hi) hr
    | some r =>
      dsimp only
      by_cases hm : rowMatchB r n d
      · simp only [if_pos hm]
        constructor
        · intro h; exact absurd h (by simp)
        · intro h
          have := h k r (Nat.lt_succ_self k) hk
          rw [hm] at this
          exact absurd this (by simp)
      · rw [if_neg hm, ih]
        constructor
        · intro h i r' hi hr
          rcases Nat.lt_succ_iff_lt_or_eq.mp hi with hi' | hi'
          · exact h i r' hi' hr
          · subst hi'
            rw [hk] at hr
            cases hr
            exact Bool.not_eq_true _ ▸ (by simpa using hm)
        · intro h i r' hi hr
          exact h i r' (Nat.lt_succ_of_lt hi) hr

theorem findAux_eq_some (n d : String) (rows : List Row) (k : Nat) (rec : FoundRecord)
    (h : findAux n d rows k = some rec) :
    ∃ (i : Nat) (r : Row), i < k ∧ rows[i]? = some r ∧ rowMatchB r n d = true ∧
      rec = mkFound i r ∧
      ∀ (j : Nat) (r' : Row), i < j → j < k → rows[j]? = some r' → rowMatchB r' n d = false := by
  induction k with
  | zero => simp [findAux] at h
  | succ k ih =>
    rw [findAux] at h
    cases hk : rows[k]? with
    | none =>
      rw [hk] at h
      dsimp only at h
      obtain ⟨i, r, hik, hr, hm, hrec, hafter⟩ := ih h
      refine ⟨i, r, Nat.lt_succ_of_lt hik, hr, hm, hrec, ?_⟩
      intro j r' hij hjk hj
      rcases Nat.lt_succ_iff_lt_or_eq.mp hjk with hj' | hj'
      · exact hafter j r' hij hj' hj
      · subst hj'; rw [hk] at hj; exact absurd hj (by simp)
    | some r =>
      rw [hk] at h
      dsimp only at h
      by_cases hm : rowMatchB r n d
      · rw [if_pos hm] at h
        cases h
        refine ⟨k, r, Nat.lt_succ_self k, hk, hm, rfl, ?_⟩
        intro j r' hkj hjk _
        omega
      · rw [if_neg hm] at h
        obtain ⟨i, r', hik, hr, hm', hrec, hafter⟩ := ih h
        refine ⟨i, r', Nat.lt_succ_of_lt hik, hr, hm', hrec, ?_⟩
        intro j r'' hij hjk hj
        rcases Nat.lt_succ_iff_lt_or_eq.mp hjk with hj' | hj'
        · exact hafter j r'' hij hj' hj
        · subst hj'
          rw [hk] at hj
          cases hj
          exact Bool.not_eq_true _ ▸ (by simpa using hm)

theorem findTodayRecord_eq_none_iff (rows : List Row) (n d : String) :
    findTodayRecord rows n d = none ↔
      ∀ (i : Nat) (r : Row), rows[i]? = some r → rowMatchB r n d = false := by
  rw [findTodayRecord, findAux_eq_none_iff]
  constructor
  · intro h i r hr
    have hi : i < rows.length := (List.getElem?_eq_some_iff.mp hr).1
    exact h i r hi hr
  · intro h i r _ hr
    exact h i r hr

theorem findTodayRecord_eq_some (rows : List Row) (n d : String) (rec : FoundRecord)
    (h : findTodayRecord rows n d = some rec) :
    ∃ (i : Nat) (r : Row), rows[i]? = some r ∧ rowMatchB r n d = true ∧
      rec = mkFound i r ∧
      ∀ (j : Nat) (r' : Row), i < j → rows[j]? = some r' → rowMatchB r' n d = false := by
  obtain ⟨i, r, _, hr, hm, hrec, hafter⟩ := findAux_eq_some n d rows rows.length rec h
  refine ⟨i, r, hr, hm, hrec, ?_⟩
  intro j r' hij hj
  have hj' : j < rows.length := (List.getElem?_eq_some_iff.mp hj).1
  exact hafter j r' hij hj' hj

theorem findTodayRecord_isSome_of_match (rows : List Row) (n d : String)
    (i : Nat) (r : Row) (hr : rows[i]? = some r) (hm : rowMatchB r n d = true) :
    ∃ rec, findTodayRecord rows n d = some rec := by
  cases h : findTodayRecord rows n d with
  | some rec => exact ⟨rec, rfl⟩
  | none =>
    have := (findTodayRecord_eq_none_iff rows n d).mp h i r hr
    rw [hm] at this
    exact absurd this (by simp)

/-! ## Lemmas: in-place row update -/

theorem modifyAt_length (l : List Row) (i : Nat) (f : Row → Row) :
    (modifyAt l i f).length = l.length := by
  induction l generalizing i with
  | nil => rfl
  | cons a l ih =>
    cases i with
    | zero => rfl
    | succ n => simpa [modifyAt] using ih n

theorem modifyAt_getElem?_ne (l : List Row) (i j : Nat) (f : Row → Row) (h : j ≠ i) :
    (modifyAt l i f)[j]? = l[j]? := by
  induction l generalizing i j with
  | nil => rfl
  | cons a l ih =>
    cases i with
    | zero =>
      cases j with
      | zero => exact absurd rfl h
      | succ m => simp [modifyAt]
    | succ n =>
      cases j with
      | zero => simp [modifyAt]
      | succ m =>
        simp only [modifyAt, List.getElem?_cons_succ]
        exact ih n m (by omega)

theorem modifyAt_getElem?_eq (l : List Row) (i : Nat) (f : Row → Row) :
    (modifyAt l i f)[i]? = (l[i]?).map f := by
  induction l generalizing i with
  | nil => simp [modifyAt]
  | cons a l ih =>
    cases i with
    | zero => simp [modifyAt]
    | succ n => simpa [modifyAt] using ih n

/-- Splitting an index into a list extended by one element. -/
theorem concat_getElem?_cases (l : List Row) (c : Row) (i : Nat) (x : Row)
    (h : (l ++ [c])[i]? = some x) :
    (i < l.length ∧ l[i]? = some x) ∨ (i = l.length ∧ x = c) := by
  rcases Nat.lt_trichotomy i l.length with hi | hi | hi
  · left
    refine ⟨hi, ?_⟩
    rwa [List.getElem?_append_left hi] at h
  · right
    subst hi
    rw [List.getElem?_concat_length] at h
    cases h
    exact ⟨rfl, rfl⟩
  · exfalso
    rw [List.getElem?_eq_none (by simpa using hi)] at h
    exact absurd h (by simp)

/-! ## Lemmas: variant agreement -/

theorem rowMatchB_eq_rowMatchBW (r : Row) (n d : String)
    (h : dateStringV1 r.date = dateStringV2 r.date) :
    rowMatchB r n d = rowMatchBW r n d := by
  unfold rowMatchB rowMatchBW
  rw [h]

theorem findAux_eq_findAuxW (n d : String) (rows : List Row)
    (h : ∀ r ∈ rows, dateStringV1 r.date = dateStringV2 r.date) :
    ∀ k, findAux n d rows k = findAuxW n d rows k := by
  intro k
  induction k with
  | zero => rfl
  | succ k ih =>
    rw [findAux, findAuxW]
    cases hk : rows[k]? with
    | none => exact ih
    | some r =>
      dsimp only
      rw [rowMatchB_eq_rowMatchBW r n d (h r (List.getElem?_mem hk))]
      split_ifs with hm
      · rfl
      · exact ih

/-! ## Claim theorems -/

/-- C4: for well-formed `HH:mm` inputs, `calculateWorkingHours` is the
elapsed duration in hours rounded to two decimals, with an out-time before
the in-time pushed to the next day; in particular the three quoted
examples hold. -/
theorem calculateWorkingHours_correct :
    (∀ inH inM outH outM : Nat, inH < 24 → inM < 60 → outH < 24 → outM < 60 →
      calculateWorkingHours (hhmmStr inH inM) (hhmmStr outH outM)
        = some (round2 ((elapsedMinutes inH inM outH outM : ℚ) / 60)))
    ∧ calculateWorkingHours "09:00" "17:00" = some 8
    ∧ calculateWorkingHours "09:00" "16:30" = some (15 / 2)
    ∧ calculateWorkingHours "22:00" "06:00" = some 8 := by
  refine ⟨?_, ?_, ?_, ?_⟩
  · intro inH inM outH outM h1 h2 h3 h4
    have e1 := timeComponents_hhmm inH inM (by omega) (by omega)
    have e2 := timeComponents_hhmm outH outM (by omega) (by omega)
    simp only [calculateWorkingHours, e1, e2]
    congr 1
    congr 1
    rw [div_eq_div_iff (by norm_num) (by norm_num)]
    have hint : (if ((outH : Int) * 60 + outM) < ((inH : Int) * 60 + inM)
        then (outH : Int) * 60 + outM + 1440 else (outH : Int) * 60 + outM)
          - ((inH : Int) * 60 + inM) = elapsedMinutes inH inM outH outM := by
      unfold elapsedMinutes
      split_ifs with hc <;> omega
    rw [← hint]
  · have h1 : timeComponents "09:00" = (some 9, some 0) := by decide
    have h2 : timeComponents "17:00" = (some 17, some 0) := by decide
    simp only [calculateWorkingHours, h1, h2]
    norm_num [round2]
  · have h1 : timeComponents "09:00" = (some 9, some 0) := by decide
    have h2 : timeComponents "16:30" = (some 16, some 30) := by decide
    simp only [calculateWorkingHours, h1, h2]
    norm_num [round2]
  · have h1 : timeComponents "22:00" = (some 22, some 0) := by decide
    have h2 : timeComponents "06:00" = (some 6, some 0) := by decide
    simp only [calculateWorkingHours, h1, h2]
    norm_num [round2]

/-- C4 witness: the general statement instantiated at 09:00/17:00. -/
theorem calculateWorkingHours_correct_witness :
    calculateWorkingHours (hhmmStr 9 0) (hhmmStr 17 0)
      = some (round2 ((elapsedMinutes 9 0 17 0 : ℚ) / 60)) :=
  calculateWorkingHours_correct.1 9 0 17 0 (by decide) (by decide) (by decide) (by decide)

/-- C5 counterexample: on the unparsable input `"abc"` the function does
NOT return `0`; it returns `NaN` (modelled `none`). -/
theorem calculateWorkingHours_nan_counterexample :
    calculateWorkingHours "abc" "17:00" = none
    ∧ calculateWorkingHours "abc" "17:00" ≠ some 0 := by
  have h1 : timeComponents "abc" = (none, none) := by decide
  constructor <;> simp [calculateWorkingHours, h1]

/-- C5 (amended): when either time fails to parse as a finite number —
any of the two components of either input is `NaN` or `±Infinity` under
the full `Number()` grammar (note that inputs such as `"1.5:00"`,
`"1e1:00"` or `"0x10:00"` DO parse as numbers and yield finite results)
— `calculateWorkingHours` returns `NaN` (`none`), not `0` and not any
numeric value; no error is propagated.  (The literal claim that `0` is
returned is what the `catch` would do, but for string inputs no
exception occurs: `NaN` flows through the arithmetic instead.) -/
theorem calculateWorkingHours_parse_failure (s t : String)
    (h : (timeComponents s).1 = none ∨ (timeComponents s).2 = none
       ∨ (timeComponents t).1 = none ∨ (timeComponents t).2 = none) :
    calculateWorkingHours s t = none := by
  rcases hs : timeComponents s with ⟨a, b⟩
  rcases ht : timeComponents t with ⟨c, d⟩
  rw [hs, ht] at h
  simp only [calculateWorkingHours, hs, ht]
  cases a <;> cases b <;> cases c <;> cases d <;> simp_all

/-- C5 witness: the amended statement at the concrete failing input. -/
theorem calculateWorkingHours_parse_failure_witness :
    calculateWorkingHours "abc" "17:00" = none :=
  calculateWorkingHours_parse_failure "abc" "17:00" (Or.inl (by decide))

/-- A ledger row whose text-typed date cell carries surrounding
whitespace: the two backend variants disagree on it. -/
def wsDateRow : Row :=
  ⟨.str "Bob", .str " 2024-01-01", .str "09:00", .str "", .str "", .str ""⟩

/-- A ledger row whose structured date cell holds an instant shortly
before UTC midnight: `'GMT+0'` renders 2024-01-01 while
`'Europe/Warsaw'` (UTC+1) already renders 2024-01-02, so the two
variants' `findTodayRecord` date strings differ. -/
def tzDateRow : Row :=
  ⟨.str "Bob",
   .date "2024-01-01" "2024-01-02" "Mon Jan 01 2024 23:30:00 GMT+0000 (UTC)",
   .str "09:00", .str "", .str "", .str ""⟩

/-- The same row with the date already trimmed: the variants agree. -/
def cleanDateRow : Row :=
  ⟨.str "Bob", .str "2024-01-01", .str "09:00", .str "", .str "", .str ""⟩

/-- C10 counterexample: the two backends are not behaviorally equivalent
on `findTodayRecord`.  On a ledger whose (text) date cell has a leading
space, the primary variant finds nothing while the second (which trims
text dates) finds the row; and on a ledger whose structured date cell
sits between 23:00 and 24:00 UTC, the primary variant (formatting in
`'GMT+0'`) finds the row for 2024-01-01 while the second (formatting in
`'Europe/Warsaw'`) does not. -/
theorem findTodayRecord_variants_differ :
    (findTodayRecord [wsDateRow] "Bob" "2024-01-01" = none
      ∧ findTodayRecordW [wsDateRow] "Bob" "2024-01-01" = some ⟨2, "09:00", ""⟩
      ∧ findTodayRecord [wsDateRow] "Bob" "2024-01-01"
          ≠ findTodayRecordW [wsDateRow] "Bob" "2024-01-01")
    ∧ (findTodayRecord [tzDateRow] "Bob" "2024-01-01" = some ⟨2, "09:00", ""⟩
      ∧ findTodayRecordW [tzDateRow] "Bob" "2024-01-01" = none
      ∧ findTodayRecord [tzDateRow] "Bob" "2024-01-01"
          ≠ findTodayRecordW [tzDateRow] "Bob" "2024-01-01") := by
  refine ⟨⟨by decide, by decide, by decide⟩, ⟨by decide, by decide, by decide⟩⟩

/-- C10 (amended): the two `calculateWorkingHours` implementations agree
on all inputs; the two `findTodayRecord` implementations agree on every
ledger in which each row's two date renderings coincide — a text date
cell that is trim-invariant, or a structured date cell that formats to
the same `yyyy-MM-dd` string under both variants' timezones (`'GMT+0'`
vs `'Europe/Warsaw'`).  In particular they agree on everything the
workflow itself writes (trimmed text dates).  They can differ on a
whitespace-padded text date (only the second variant trims) and on a
structured date whose instant falls on different local days in the two
timezones. -/
theorem backendVariants_equiv :
    (∀ a b : String, calculateWorkingHours a b = calculateWorkingHoursW a b)
    ∧ (∀ (rows : List Row) (n d : String),
        (∀ r ∈ rows, dateStringV1 r.date = dateStringV2 r.date) →
        findTodayRecord rows n d = findTodayRecordW rows n d) := by
  constructor
  · intro a b
    unfold calculateWorkingHours calculateWorkingHoursW
    rcases timeComponents a with ⟨x1, y1⟩
    rcases timeComponents b with ⟨x2, y2⟩
    cases x1 <;> cases y1 <;> cases x2 <;> cases y2 <;> rfl
  · intro rows n d h
    exact findAux_eq_findAuxW n d rows h rows.length

/-- C10 witness: the amended agreement at a concrete one-row ledger. -/
theorem backendVariants_equiv_witness :
    findTodayRecord [cleanDateRow] "Bob" "2024-01-01"
      = findTodayRecordW [cleanDateRow] "Bob" "2024-01-01" :=
  backendVariants_equiv.2 [cleanDateRow] "Bob" "2024-01-01" (by decide)

/-- C7: `findTodayRecord` returns none exactly when no data row matches
the trimmed employee name and the normalized date; when it returns a
record, that record comes from a matching row and no later (more recently
appended) row matches, so the most recently written matching row wins. -/
theorem findTodayRecord_spec (rows : List Row) (n d : String) :
    (findTodayRecord rows n d = none ↔
      ∀ (i : Nat) (r : Row), rows[i]? = some r → rowMatchB r n d = false)
    ∧ (∀ rec, findTodayRecord rows n d = some rec →
        ∃ (i : Nat) (r : Row), rows[i]? = some r ∧ rowMatchB r n d = true ∧
          rec = mkFound i r ∧
          ∀ (j : Nat) (r' : Row), i < j → rows[j]? = some r' → rowMatchB r' n d = false) :=
  ⟨findTodayRecord_eq_none_iff rows n d,
   fun rec h => findTodayRecord_eq_some rows n d rec h⟩

/-- C7 witness: the characterization instantiated on a one-row ledger. -/
theorem findTodayRecord_spec_witness :
    ∃ (i : Nat) (r : Row), [cleanDateRow][i]? = some r
      ∧ rowMatchB r "Bob" "2024-01-01" = true
      ∧ (⟨2, "09:00", ""⟩ : FoundRecord) = mkFound i r
      ∧ ∀ (j : Nat) (r' : Row), i < j → [cleanDateRow][j]? = some r' →
          rowMatchB r' "Bob" "2024-01-01" = false :=
  (findTodayRecord_spec [cleanDateRow] "Bob" "2024-01-01").2 ⟨2, "09:00", ""⟩ (by decide)

/-- C2: a validated punch-in against a ledger already holding today's
record with a punch-in time fails with a message carrying that time and
appends nothing; otherwise it appends exactly one new row
`[name, date, now, '', '', "In Progress"]` and succeeds echoing the
recorded time. -/
theorem processPunchIn_spec (rows : List Row) (name date time : String) :
    (∀ rec, findTodayRecord rows name date = some rec → rec.punchInTime ≠ "" →
      processPunchIn rows name date time
        = (rows, ⟨false, "You already punched in today at " ++ rec.punchInTime ++ ".", none⟩)
      ∧ containsSub rec.punchInTime (processPunchIn rows name date time).2.message)
    ∧ ((findTodayRecord rows name date = none
        ∨ (∃ rec, findTodayRecord rows name date = some rec ∧ rec.punchInTime = "")) →
      (processPunchIn rows name date time).1
        = rows ++ [⟨.str name, .str date, .str time, .str "", .str "", .str "In Progress"⟩]
      ∧ (processPunchIn rows name date time).2
        = ⟨true, "Punch-in successful at " ++ time ++ ".", none⟩
      ∧ containsSub time (processPunchIn rows name date time).2.message) := by
  constructor
  · intro rec hfind hin
    rw [processPunchIn, hfind]
    dsimp only
    rw [if_pos hin]
    exact ⟨rfl, "You already punched in today at ", ".", rfl⟩
  · intro h
    rcases h with hnone | ⟨rec, hfind, hin⟩
    · rw [processPunchIn, hnone]
      exact ⟨rfl, rfl, "Punch-in successful at ", ".", rfl⟩
    · rw [processPunchIn, hfind]
      dsimp only
      rw [if_neg (by simpa using hin)]
      exact ⟨rfl, rfl, "Punch-in successful at ", ".", rfl⟩

/-- C2 witness: the duplicate-rejection branch on a concrete ledger. -/
theorem processPunchIn_spec_witness :
    processPunchIn [cleanDateRow] "Bob" "2024-01-01" "10:00"
      = ([cleanDateRow],
         ⟨false, "You already punched in today at " ++ "09:00" ++ ".", none⟩)
    ∧ containsSub "09:00" (processPunchIn [cleanDateRow] "Bob" "2024-01-01" "10:00").2.message :=
  (processPunchIn_spec [cleanDateRow] "Bob" "2024-01-01" "10:00").1
    ⟨2, "09:00", ""⟩ (by decide) (by decide)

/-- C3: a validated punch-out with no usable record is rejected without
touching the ledger; one against an already-closed record is rejected
with a message carrying the stored punch-out time and changes nothing;
otherwise exactly the punch-out time, total-hours and status cells of the
found row are overwritten in place (no append), the status being
`"On Time"` precisely when the computed hours reach 8. -/
theorem processPunchOut_spec (rows : List Row) (name date time : String) :
    (findTodayRecord rows name date = none →
      processPunchOut rows name date time
        = (rows, ⟨false, "No punch-in record found for today. Please punch in first.", none⟩))
    ∧ (∀ rec, findTodayRecord rows name date = some rec → rec.punchInTime = "" →
      processPunchOut rows name date time
        = (rows, ⟨false, "No punch-in record found for today. Please punch in first.", none⟩))
    ∧ (∀ rec, findTodayRecord rows name date = some rec → rec.punchInTime ≠ "" →
        rec.punchOutTime ≠ "" →
      processPunchOut rows name date time
        = (rows, ⟨false, "You already punched out today at " ++ rec.punchOutTime ++ ".", none⟩)
      ∧ containsSub rec.punchOutTime (processPunchOut rows name date time).2.message)
    ∧ (∀ rec, findTodayRecord rows name date = some rec → rec.punchInTime ≠ "" →
        rec.punchOutTime = "" →
      (processPunchOut rows name date time).2.success = true
      ∧ ((processPunchOut rows name date time).1).length = rows.length
      ∧ (∀ j : Nat, j ≠ rec.row - 2 →
          ((processPunchOut rows name date time).1)[j]? = rows[j]?)
      ∧ ((processPunchOut rows name date time).1)[rec.row - 2]?
          = (rows[rec.row - 2]?).map (fun r =>
              { r with
                  punchOut := .str time,
                  total := .num (calculateWorkingHours rec.punchInTime time),
                  status := .str (if jsGe (calculateWorkingHours rec.punchInTime time) 8
                                  then "On Time" else "Less Hours") })) := by
  refine ⟨?_, ?_, ?_, ?_⟩
  · intro hnone
    rw [processPunchOut, hnone]
  · intro rec hfind hin
    rw [processPunchOut, hfind]
    dsimp only
    rw [if_pos hin]
  · intro rec hfind hin hout
    rw [processPunchOut, hfind]
    dsimp only
    rw [if_neg (by simpa using hin), if_pos hout]
    exact ⟨rfl, "You already punched out today at ", ".", rfl⟩
  · intro rec hfind hin hout
    rw [processPunchOut, hfind]
    dsimp only
    rw [if_neg (by simpa using hin), if_neg (by simpa using hout)]
    refine ⟨rfl, modifyAt_length _ _ _, ?_, ?_⟩
    · intro j hj
      exact modifyAt_getElem?_ne _ _ _ _ hj
    · exact modifyAt_getElem?_eq _ _ _

/-- C3 witness: a successful punch-out updates exactly the found row. -/
theorem processPunchOut_spec_witness :
    (processPunchOut [cleanDateRow] "Bob" "2024-01-01" "17:00").2.success = true
    ∧ ((processPunchOut [cleanDateRow] "Bob" "2024-01-01" "17:00").1).length
        = [cleanDateRow].length
    ∧ ((processPunchOut [cleanDateRow] "Bob" "2024-01-01" "17:00").1)[(2 : Nat) - 2]?
        = ([cleanDateRow][(2 : Nat) - 2]?).map (fun r =>
            { r with
                punchOut := .str "17:00",
                total := .num (calculateWorkingHours "09:00" "17:00"),
                status := .str (if jsGe (calculateWorkingHours "09:00" "17:00") 8
                                then "On Time" else "Less Hours") }) :=
  have h := (processPunchOut_spec [cleanDateRow] "Bob" "2024-01-01" "17:00").2.2.2
    ⟨2, "09:00", ""⟩ (by decide) (by decide) (by decide)
  ⟨h.1, h.2.1, h.2.2.2⟩

/-- A directory in which the same name appears twice with two different
dates of birth. -/
def dupDir : List DirRow :=
  [⟨.str "Alice", .str "1990-01-01"⟩, ⟨.str "Alice", .str "1991-02-02"⟩]

/-- A one-entry directory. -/
def soloDir : List DirRow := [⟨.str "Carol", .str "1980-05-05"⟩]

/-- C6 counterexample: ("Alice", "1991-02-02") is literally a directory
entry (the second row), yet `validateEmployee` rejects it, because the
scan stops at the FIRST row named "Alice" — so "for all employees E with
directory entry (name, dob), validateEmployee(E.name, E.dob) is true"
fails on duplicated names. -/
theorem validateEmployee_dup_counterexample :
    dupDir[1]? = some ⟨.str "Alice", .str "1991-02-02"⟩
    ∧ validateEmployee (some dupDir) "Alice" "1991-02-02" = false :=
  ⟨by decide, by decide⟩

/-- C6 (amended): `validateEmployee` succeeds exactly when the first
directory row with a non-blank name whose trimmed name equals the trimmed
input has a normalized stored date of birth equal to the trimmed input
date; it fails when the directory is missing.  For an employee whose row
is the first such match for their own name (and whose normalized dob is
trim-invariant, as every `yyyy-MM-dd` string is), validation with the
normalized dob succeeds — rows shadowed by an earlier row with the same
name can fail validation. -/
theorem validateEmployee_spec (dir : List DirRow) (name dob : String) :
    (validateEmployee (some dir) name dob = true ↔
      ∃ r, dir.find? (fun r2 => dirNameMatchB r2 name) = some r
        ∧ dobNorm r.dob = jsTrim dob)
    ∧ validateEmployee none name dob = false
    ∧ (∀ r : DirRow,
        dir.find? (fun r2 => dirNameMatchB r2 (cellToString r.name)) = some r →
        jsTrim (dobNorm r.dob) = dobNorm r.dob →
        validateEmployee (some dir) (cellToString r.name) (dobNorm r.dob) = true) := by
  refine ⟨?_, rfl, ?_⟩
  · rw [validateEmployee]
    cases hf : dir.find? (fun r2 => dirNameMatchB r2 name) with
    | none =>
      dsimp only
      constructor
      · intro h; exact absurd h (by simp)
      · rintro ⟨r, hr, -⟩; exact absurd hr (by simp)
    | some r =>
      dsimp only
      constructor
      · intro h; exact ⟨r, rfl, by simpa using h⟩
      · rintro ⟨r', hr', hd⟩
        cases hr'
        simpa using hd
  · intro r hf htrim
    rw [validateEmployee, hf]
    dsimp only
    rw [htrim]
    simp

/-- C6 witness: a non-shadowed entry validates with its own stored dob. -/
theorem validateEmployee_spec_witness :
    validateEmployee (some soloDir) (cellToString (Cell.str "Carol"))
      (dobNorm (Cell.str "1980-05-05")) = true :=
  (validateEmployee_spec soloDir "x" "y").2.2
    ⟨.str "Carol", .str "1980-05-05"⟩ (by decide) (by decide)

/-- C8: against the same directory, a punch request naming an unknown
employee and one naming a known employee with a wrong date of birth draw
the identical single generic rejection, revealing nothing about which
names exist. -/
theorem processPunch_uniform_rejection
    (dir : List DirRow) (att : Option (List Row))
    (name1 dob1 name2 dob2 pt date time : String)
    (h1n : name1 ≠ "") (h1d : dob1 ≠ "")
    (h2n : name2 ≠ "") (h2d : dob2 ≠ "")
    (hpt : pt = "in" ∨ pt = "out")
    (habsent : ∀ r ∈ dir, dirNameMatchB r name1 = false)
    (hwrong : ∃ r, dir.find? (fun r2 => dirNameMatchB r2 name2) = some r
        ∧ dobNorm r.dob ≠ jsTrim dob2) :
    processPunch (some dir) att name1 dob1 pt date time
      = processPunch (some dir) att name2 dob2 pt date time
    ∧ processPunch (some dir) att name1 dob1 pt date time
      = (att, ⟨false, "Employee not found or date of birth is incorrect.", none⟩) := by
  have hv1 : validateEmployee (some dir) name1 dob1 = false := by
    rw [validateEmployee]
    rw [List.find?_eq_none.mpr (fun r hr => by simp [habsent r hr])]
  have hv2 : validateEmployee (some dir) name2 dob2 = false := by
    obtain ⟨r, hf, hd⟩ := hwrong
    rw [validateEmployee, hf]
    dsimp only
    simpa using hd
  have hpt' : pt ≠ "" := by rcases hpt with rfl | rfl <;> decide
  have hbad : ∀ (a b c : String), a ≠ "" → b ≠ "" → c ≠ "" →
      (decide (a = "") || decide (b = "") || decide (c = "")) = false := by
    intro a b c ha hb hc
    simp [ha, hb, hc]
  have hptgood : (decide (pt ≠ "in") && decide (pt ≠ "out")) = false := by
    rcases hpt with rfl | rfl <;> decide
  constructor
  · rw [processPunch.eq_def, processPunch.eq_def,
      hbad name1 dob1 pt h1n h1d hpt', hbad name2 dob2 pt h2n h2d hpt',
      hptgood, hv1, hv2]
    simp
  · rw [processPunch.eq_def, hbad name1 dob1 pt h1n h1d hpt', hptgood, hv1]
    simp

/-- A one-entry directory used to probe the rejection message. -/
def probeDir : List DirRow := [⟨.str "Alice", .str "1990-01-01"⟩]

/-- C8 witness: unknown name vs wrong dob, identical generic rejection. -/
theorem processPunch_uniform_rejection_witness :
    processPunch (some probeDir) (some []) "Zed" "1970-01-01" "in" "2024-03-01" "09:00"
      = processPunch (some probeDir) (some []) "Alice" "1999-09-09" "in" "2024-03-01" "09:00"
    ∧ processPunch (some probeDir) (some []) "Zed" "1970-01-01" "in" "2024-03-01" "09:00"
      = (some [], ⟨false, "Employee not found or date of birth is incorrect.", none⟩) :=
  processPunch_uniform_rejection probeDir (some []) "Zed" "1970-01-01" "Alice" "1999-09-09"
    "in" "2024-03-01" "09:00" (by decide) (by decide) (by decide) (by decide)
    (Or.inl rfl) (by decide)
    ⟨⟨.str "Alice", .str "1990-01-01"⟩, by decide, by decide⟩

/-! ## Lemmas: no punch path ever sets `employees` -/

theorem processPunchIn_employees_none (rows : List Row) (n d t : String) :
    (processPunchIn rows n d t).2.employees = none := by
  rw [processPunchIn]
  cases h : findTodayRecord rows n d with
  | none => rfl
  | some rec =>
    dsimp only
    split_ifs <;> rfl

theorem processPunchOut_employees_none (rows : List Row) (n d t : String) :
    (processPunchOut rows n d t).2.employees = none := by
  rw [processPunchOut]
  cases h : findTodayRecord rows n d with
  | none => rfl
  | some rec =>
    dsimp only
    split_ifs <;> rfl

theorem processPunch_employees_none (dir : Option (List DirRow)) (att : Option (List Row))
    (n dob pt date time : String) :
    (processPunch dir att n dob pt date time).2.employees = none := by
  rw [processPunch.eq_def]
  split_ifs
  · rfl
  · rfl
  · cases att with
    | none => rfl
    | some rows =>
      have h := processPunchIn_employees_none rows n date time
      rcases hp : processPunchIn rows n date time with ⟨rows2, resp⟩
      rw [hp] at h
      simpa [hp] using h
  · cases att with
    | none => rfl
    | some rows =>
      have h := processPunchOut_employees_none rows n date time
      rcases hp : processPunchOut rows n date time with ⟨rows2, resp⟩
      rw [hp] at h
      simpa [hp] using h
  · rfl

/-- C9: both entry points always answer with the uniform envelope (the
`Response` type: a success flag, a message, an optional employee list);
the employee list is populated only by the directory-listing action, and
the malformed / unrecognized request paths answer `success = false` with
a message rather than raising. -/
theorem entrypoint_envelope
    (dir : Option (List DirRow)) (att : Option (List Row))
    (date time : String) (input : PostInput) (action : Option String) :
    (doPost dir att date time input).2.employees = none
    ∧ (∀ m, input = .malformed m →
        (doPost dir att date time input).2 = ⟨false, "Server error: " ++ m, none⟩)
    ∧ (∀ req, input = .parsed req → req.action ≠ "punch" →
        (doPost dir att date time input).2 = ⟨false, "Unrecognized action", none⟩)
    ∧ ((doGet dir action).employees ≠ none → action = some "getEmployees")
    ∧ (action ≠ some "getEmployees" →
        doGet dir action = ⟨false, "Unrecognized action", none⟩) := by
  refine ⟨?_, ?_, ?_, ?_, ?_⟩
  · cases input with
    | malformed m => rfl
    | parsed req =>
      rw [doPost]
      split_ifs
      · exact processPunch_employees_none dir att req.employeeName req.dateOfBirth
          req.punchType date time
      · rfl
  · rintro m rfl
    rfl
  · rintro req rfl hact
    rw [doPost, if_neg hact]
  · intro h
    by_cases hact : action = some "getEmployees"
    · exact hact
    · rw [doGet, if_neg hact] at h
      exact absurd rfl h
  · intro hact
    rw [doGet, if_neg hact]

/-- C9 witness: a malformed POST and an unknown GET action both answer
the envelope with `success = false`. -/
theorem entrypoint_envelope_witness :
    (doPost (some []) (some []) "2024-03-01" "09:00" (.malformed "bad json")).2
      = ⟨false, "Server error: " ++ "bad json", none⟩
    ∧ doGet (some []) (some "listAll") = ⟨false, "Unrecognized action", none⟩ :=
  ⟨(entrypoint_envelope (some []) (some []) "2024-03-01" "09:00"
      (.malformed "bad json") (some "listAll")).2.1 "bad json" rfl,
   (entrypoint_envelope (some []) (some []) "2024-03-01" "09:00"
      (.malformed "bad json") (some "listAll")).2.2.2.2 (by decide)⟩

/-! ## Lemmas: the ledger state machine -/

theorem rowMatchB_iff (r : Row) (n d : String) :
    rowMatchB r n d = true ↔
      (jsTrim (cellToString r.name) = jsTrim n ∧ dateStringV1 r.date = d) := by
  simp [rowMatchB]

theorem recIn_update (r : Row) (t : String) (th : Option ℚ) (st : String) :
    recIn { r with punchOut := .str t, total := .num th, status := .str st } = recIn r := rfl

theorem recOut_update (r : Row) (t : String) (th : Option ℚ) (st : String) (ht : t ≠ "") :
    recOut { r with punchOut := .str t, total := .num th, status := .str st } = t := by
  simp [recOut, cellTruthy, cellToString, ht]

theorem find_punchInTime_ne (rows : List Row) (n d : String) (hAll : AllPunchedIn rows) :
    ∀ rec, findTodayRecord rows n d = some rec → rec.punchInTime ≠ "" := by
  intro rec hf
  obtain ⟨i, r, hi, -, hrec, -⟩ := findTodayRecord_eq_some rows n d rec hf
  rw [hrec]
  exact hAll i r hi

theorem processPunchIn_preserves_wf (rows : List Row) (name date time : String)
    (hWF : LedgerWF rows) (htime : time ≠ "") :
    LedgerWF (processPunchIn rows name date time).1 := by
  cases hf : findTodayRecord rows name date with
  | some rec =>
    rw [processPunchIn, hf]
    dsimp only
    rw [if_pos (find_punchInTime_ne rows name date hWF.1 rec hf)]
    exact hWF
  | none =>
    rw [processPunchIn, hf]
    dsimp only
    constructor
    · intro i r hir
      rcases concat_getElem?_cases rows _ i r hir with ⟨-, hr⟩ | ⟨-, rfl⟩
      · exact hWF.1 i r hr
      · show recIn _ ≠ ""
        simp [recIn, cellTruthy, cellToString, htime]
    · intro n d a b ra rb ha hb hma hmb hoa hob
      have hkey : ∀ (x : Nat) (rx : Row), rows[x]? = some rx → rowMatchB rx n d = true →
          rowMatchB ⟨.str name, .str date, .str time, .str "", .str "", .str "In Progress"⟩
            n d = true → False := by
        intro x rx hx hmx hmC
        rw [rowMatchB_iff] at hmC
        simp only [cellToString, dateStringV1] at hmC
        have hmatch : rowMatchB rx name date = true := by
          rw [rowMatchB_iff]
          rw [rowMatchB_iff] at hmx
          exact ⟨hmx.1.trans hmC.1.symm, hmx.2.trans hmC.2.symm⟩
        have hfalse := (findTodayRecord_eq_none_iff rows name date).mp hf x rx hx
        rw [hmatch] at hfalse
        exact absurd hfalse (by simp)
      rcases concat_getElem?_cases rows _ a ra ha with ⟨-, hra⟩ | ⟨haE, rfl⟩
      · rcases concat_getElem?_cases rows _ b rb hb with ⟨-, hrb⟩ | ⟨hbE, rfl⟩
        · exact hWF.2 n d a b ra rb hra hrb hma hmb hoa hob
        · exact absurd (hkey a ra hra hma hmb) (by simp)
      · rcases concat_getElem?_cases rows _ b rb hb with ⟨-, hrb⟩ | ⟨hbE, rfl⟩
        · exact absurd (hkey b rb hrb hmb hma) (by simp)
        · rw [haE, hbE]

theorem processPunchOut_preserves_wf (rows : List Row) (name date time : String)
    (hWF : LedgerWF rows) (htime : time ≠ "") :
    LedgerWF (processPunchOut rows name date time).1 := by
  cases hf : findTodayRecord rows name date with
  | none =>
    rw [processPunchOut, hf]
    exact hWF
  | some rec =>
    have hin := find_punchInTime_ne rows name date hWF.1 rec hf
    rw [processPunchOut, hf]
    dsimp only
    rw [if_neg (by simpa using hin)]
    by_cases hout : rec.punchOutTime ≠ ""
    · rw [if_pos hout]
      exact hWF
    · rw [if_neg hout]
      obtain ⟨i, r, hi, hm, hrec, -⟩ := findTodayRecord_eq_some rows name date rec hf
      have hidx : rec.row - 2 = i := by rw [hrec]; show i + 2 - 2 = i; omega
      rw [hidx]
      constructor
      · intro j r' hj
        by_cases hji : j = i
        · subst hji
          rw [modifyAt_getElem?_eq, hi] at hj
          simp only [Option.map_some'] at hj
          cases hj
          exact hWF.1 j r hi
        · rw [modifyAt_getElem?_ne rows i j _ hji] at hj
          exact hWF.1 j r' hj
      · intro n d a b ra rb ha hb hma hmb hoa hob
        by_cases hai : a = i
        · subst hai
          rw [modifyAt_getElem?_eq, hi] at ha
          simp only [Option.map_some'] at ha
          cases ha
          have := hoa.2
          rw [recOut_update r time _ _ htime] at this
          exact absurd this htime
        · by_cases hbi : b = i
          · subst hbi
            rw [modifyAt_getElem?_eq, hi] at hb
            simp only [Option.map_some'] at hb
            cases hb
            have := hob.2
            rw [recOut_update r time _ _ htime] at this
            exact absurd this htime
          · rw [modifyAt_getElem?_ne rows i a _ hai] at ha
            rw [modifyAt_getElem?_ne rows i b _ hbi] at hb
            exact hWF.2 n d a b ra rb ha hb hma hmb hoa hob

theorem punch_terminal_rows (rows : List Row) (name date time : String)
    (hWF : LedgerWF rows) (_htime : time ≠ "") :
    ∀ (j : Nat) (r : Row), rows[j]? = some r → recOut r ≠ "" →
      (processPunchIn rows name date time).1[j]? = some r
      ∧ (processPunchOut rows name date time).1[j]? = some r := by
  intro j r hj hterm
  constructor
  · cases hf : findTodayRecord rows name date with
    | some rec =>
      rw [processPunchIn, hf]
      dsimp only
      rw [if_pos (find_punchInTime_ne rows name date hWF.1 rec hf)]
      exact hj
    | none =>
      rw [processPunchIn, hf]
      dsimp only
      have hjlen : j < rows.length := (List.getElem?_eq_some_iff.mp hj).1
      rw [List.getElem?_append_left hjlen]
      exact hj
  · cases hf : findTodayRecord rows name date with
    | none =>
      rw [processPunchOut, hf]
      exact hj
    | some rec =>
      have hin := find_punchInTime_ne rows name date hWF.1 rec hf
      rw [processPunchOut, hf]
      dsimp only
      rw [if_neg (by simpa using hin)]
      by_cases hout : rec.punchOutTime ≠ ""
      · rw [if_pos hout]
        exact hj
      · rw [if_neg hout]
        obtain ⟨i, r0, hi, hm, hrec, -⟩ := findTodayRecord_eq_some rows name date rec hf
        have hidx : rec.row - 2 = i := by rw [hrec]; show i + 2 - 2 = i; omega
        rw [hidx]
        by_cases hji : j = i
        · exfalso
          subst hji
          rw [hj] at hi
          cases hi
          have : rec.punchOutTime = recOut r := by rw [hrec]; rfl
          rw [this] at hout
          exact hout hterm
        · rw [modifyAt_getElem?_ne rows i j _ hji]
          exact hj

theorem punchOut_terminal_rejected (rows : List Row) (name date time : String)
    (hAll : AllPunchedIn rows) :
    ∀ rec, findTodayRecord rows name date = some rec → rec.punchOutTime ≠ "" →
      processPunchOut rows name date time
        = (rows, ⟨false, "You already punched out today at " ++ rec.punchOutTime ++ ".", none⟩) := by
  intro rec hf hout
  rw [processPunchOut, hf]
  dsimp only
  rw [if_neg (by simpa using find_punchInTime_ne rows name date hAll rec hf), if_pos hout]

theorem punchIn_match_rejected (rows : List Row) (name date time : String)
    (hAll : AllPunchedIn rows) :
    (∃ (j : Nat) (r : Row), rows[j]? = some r ∧ rowMatchB r name date = true) →
      (processPunchIn rows name date time).1 = rows
      ∧ (processPunchIn rows name date time).2.success = false := by
  rintro ⟨j, r, hj, hm⟩
  obtain ⟨rec, hf⟩ := findTodayRecord_isSome_of_match rows name date j r hj hm
  rw [processPunchIn, hf]
  dsimp only
  rw [if_pos (find_punchInTime_ne rows name date hAll rec hf)]
  exact ⟨rfl, rfl⟩

/-- C1 (amended): on a ledger where every record has a punch-in time and
at most one record per (trimmed name, date) key is open, punch-in and
punch-out (with a nonempty current time) preserve that state; terminal
records (punch-out time set) are never mutated; punch-out targeting a
terminal record is rejected with the duplicate message; and a same-day
punch-in against any existing record for the key is rejected without
appending.  (The unstrengthened claim — assuming only "at most one open"
— fails: see the counterexample with a punch-in-less ledger row.) -/
theorem punch_state_machine (rows : List Row) (name date time : String)
    (hWF : LedgerWF rows) (htime : time ≠ "") :
    LedgerWF (processPunchIn rows name date time).1
    ∧ LedgerWF (processPunchOut rows name date time).1
    ∧ (∀ (j : Nat) (r : Row), rows[j]? = some r → recOut r ≠ "" →
        (processPunchIn rows name date time).1[j]? = some r
        ∧ (processPunchOut rows name date time).1[j]? = some r)
    ∧ (∀ rec, findTodayRecord rows name date = some rec → rec.punchOutTime ≠ "" →
        processPunchOut rows name date time
          = (rows, ⟨false, "You already punched out today at " ++ rec.punchOutTime ++ ".", none⟩))
    ∧ ((∃ (j : Nat) (r : Row), rows[j]? = some r ∧ rowMatchB r name date = true) →
        (processPunchIn rows name date time).1 = rows
        ∧ (processPunchIn rows name date time).2.success = false) :=
  ⟨processPunchIn_preserves_wf rows name date time hWF htime,
   processPunchOut_preserves_wf rows name date time hWF htime,
   punch_terminal_rows rows name date time hWF htime,
   punchOut_terminal_rejected rows name date time hWF.1,
   punchIn_match_rejected rows name date time hWF.1⟩

/-- C1 witness: the amended invariants instantiated on the empty ledger. -/
theorem punch_state_machine_witness :
    LedgerWF (processPunchIn [] "Ann" "2024-03-01" "09:00").1
    ∧ LedgerWF (processPunchOut [] "Ann" "2024-03-01" "09:00").1 :=
  have hnil : LedgerWF ([] : List Row) :=
    ⟨fun i r h => by simp at h, fun n d i j ri rj hi => by simp at hi⟩
  have h := punch_state_machine [] "Ann" "2024-03-01" "09:00" hnil (by decide)
  ⟨h.1, h.2.1⟩

/-- An open ledger row for Bob on 2024-01-01. -/
def openRowEx : Row :=
  ⟨.str "Bob", .str "2024-01-01", .str "09:00", .str "", .str "", .str "In Progress"⟩

/-- A matching ledger row with NO punch-in time (possible in a starting
ledger constrained only by the at-most-one-open invariant). -/
def blankPunchRowEx : Row :=
  ⟨.str "Bob", .str "2024-01-01", .str "", .str "", .str "", .str ""⟩

/-- The row the counterexample punch-in appends. -/
def newRowEx : Row :=
  ⟨.str "Bob", .str "2024-01-01", .str "10:00", .str "", .str "", .str "In Progress"⟩

/-- C1 counterexample: the ledger `[open row, blank row]` satisfies the
claimed invariant (at most one open record per key), yet punch-in — whose
duplicate check only consults the LAST matching row, here the blank one —
appends a second open record for the same key, so the invariant is not
preserved as claimed. -/
theorem atMostOneOpen_not_preserved :
    AtMostOneOpen [openRowEx, blankPunchRowEx]
    ∧ ¬ AtMostOneOpen (processPunchIn [openRowEx, blankPunchRowEx]
        "Bob" "2024-01-01" "10:00").1 := by
  constructor
  · intro n d i j ri rj hi hj hmi hmj hoi hoj
    have key : ∀ (a : Nat) (ra : Row), [openRowEx, blankPunchRowEx][a]? = some ra →
        RowOpen ra → a = 0 := by
      intro a ra ha hoa
      match a with
      | 0 => rfl
      | 1 =>
        simp only [List.getElem?_cons_succ, List.getElem?_cons_zero] at ha
        cases ha
        exact absurd (by decide : recIn blankPunchRowEx = "") hoa.1
      | a + 2 =>
        simp at ha
    rw [key i ri hi hoi, key j rj hj hoj]
  · intro hctr
    have hres : (processPunchIn [openRowEx, blankPunchRowEx] "Bob" "2024-01-01" "10:00").1
        = [openRowEx, blankPunchRowEx, newRowEx] := by decide
    have h02 := hctr "Bob" "2024-01-01" 0 2 openRowEx newRowEx
      (by rw [hres]; rfl) (by rw [hres]; rfl) (by decide) (by decide)
      ⟨by decide, by decide⟩ ⟨by decide, by decide⟩
    exact absurd h02 (by decide)

end Attendly
